import Mathlib

/-!
Shallow embedding of `src/backup.py` (Backup-To-NextCloud).

Conventions used throughout:
* Python strings are modelled as `List Char` (abbreviated `Str`).
* Python `datetime` values are modelled by the record `DT` of civil fields
  (year, month, day, hour, minute, second); chronological comparison of
  timezone-aware UTC datetimes is comparison of `toSec` (seconds since the
  Unix epoch, computed with the standard civil-calendar day-number
  formula).  Timezone normalisation (`astimezone` / `replace(tzinfo=...)`)
  is the identity here because every timestamp in the model is already UTC.
* Fallible operations return `Option`; a caught Python exception is `none`.
* The digit class of the regexes is modelled as ASCII digits (the inputs
  relevant to the development are ASCII).
-/

namespace BackupToNextcloud

abbrev Str := List Char

/-- Civil calendar day number: days since 1970-01-01 of the Gregorian date
`(y, m, d)`, by the standard era/year-of-era arithmetic.  This is the day
count underlying Python's `datetime` ordering and subtraction. -/
def daysFromCivil (y : Int) (m d : Nat) : Int :=
  let y' : Int := if m ≤ 2 then y - 1 else y
  let era : Int := y'.fdiv 400
  let yoe : Nat := (y' - era * 400).toNat
  let mp : Nat := (m + 9) % 12
  let doy : Nat := (153 * mp + 2) / 5 + d - 1
  let doe : Nat := yoe * 365 + yoe / 4 - yoe / 100 + doy
  era * 146097 + (doe : Int) - 719468

/-- A second-resolution civil timestamp, the model of a (UTC) Python
`datetime`. -/
structure DT where
  year : Nat
  month : Nat
  day : Nat
  hour : Nat
  minute : Nat
  second : Nat
  deriving DecidableEq, Repr

/-- Seconds since the Unix epoch; datetime comparison and subtraction in
the source are comparison and subtraction of this quantity. -/
def toSec (t : DT) : Int :=
  86400 * daysFromCivil (t.year : Int) t.month t.day
    + 3600 * (t.hour : Int) + 60 * (t.minute : Int) + (t.second : Int)

/-- The decimal digit character for `d < 10` (and `'9'` above). -/
def dchar : Nat → Char
  | 0 => '0'
  | 1 => '1'
  | 2 => '2'
  | 3 => '3'
  | 4 => '4'
  | 5 => '5'
  | 6 => '6'
  | 7 => '7'
  | 8 => '8'
  | _ => '9'

/-- Numeric value of a digit character. -/
def dval (c : Char) : Nat := c.toNat - 48

/-- Two-digit zero-padded decimal rendering (strftime `%m %d %H %M %S`). -/
def pad2 (n : Nat) : Str := [dchar (n / 10 % 10), dchar (n % 10)]

/-- Four-digit zero-padded decimal rendering. -/
def pad4 (n : Nat) : Str :=
  [dchar (n / 1000 % 10), dchar (n / 100 % 10), dchar (n / 10 % 10), dchar (n % 10)]

/-- Rendering of strftime `%Y` on the reference platform (glibc): the year
as a plain decimal number, NOT zero-padded to four digits — years below
1000 render with fewer than four digits. -/
def yearChars (y : Nat) : Str :=
  if y < 10 then [dchar y]
  else if y < 100 then [dchar (y / 10 % 10), dchar (y % 10)]
  else if y < 1000 then [dchar (y / 100 % 10), dchar (y / 10 % 10), dchar (y % 10)]
  else pad4 y

/-- Archive name built by `backup_project` (src/backup.py lines 100 and
104): the literal `backup_`, the project name, `_`, strftime
`%Y%m%d_%H%M%S` of the timestamp, and `.zip`. -/
def backupFilename (projectId : Str) (t : DT) : Str :=
  ("backup_".toList) ++ projectId
    ++ ('_' :: (yearChars t.year ++ pad2 t.month ++ pad2 t.day))
    ++ ('_' :: (pad2 t.hour ++ pad2 t.minute ++ pad2 t.second))
    ++ (".zip".toList)

/-- ASCII lower-casing, for the `re.IGNORECASE` comparisons. -/
def lowerChar (c : Char) : Char :=
  if 'A' ≤ c ∧ c ≤ 'Z' then Char.ofNat (c.toNat + 32) else c

/-- Gregorian leap-year test (as in Python's `calendar`/`datetime`). -/
def isLeap (y : Nat) : Bool :=
  (y % 4 == 0 && y % 100 != 0) || y % 400 == 0

/-- Length of month `m` of year `y`. -/
def daysInMonth (y m : Nat) : Nat :=
  if m = 2 then (if isLeap y then 29 else 28)
  else if m = 4 ∨ m = 6 ∨ m = 9 ∨ m = 11 then 30 else 31

/-- Validity of a `DT` as a Python `datetime`: exactly the field ranges
`datetime` accepts (note `datetime` rejects leap seconds). -/
def validDT (t : DT) : Prop :=
  1 ≤ t.year ∧ t.year ≤ 9999 ∧ 1 ≤ t.month ∧ t.month ≤ 12
    ∧ 1 ≤ t.day ∧ t.day ≤ daysInMonth t.year t.month
    ∧ t.hour ≤ 23 ∧ t.minute ≤ 59 ∧ t.second ≤ 59

instance (t : DT) : Decidable (validDT t) := by
  unfold validDT; infer_instance

/-- The fixed-length tail of the filename regex
`_(\d{8})_(\d{6})\.zip$`: exactly 20 characters — an underscore, eight
digits, an underscore, six digits, and `.zip` (extension case-insensitive
under `re.IGNORECASE`).  On a match, `strptime("%Y%m%d_%H%M%S")` plus the
`datetime` constructor validate the field ranges; failure raises
`ValueError`, caught by the source and turned into `None`. -/
def parseTail (l : Str) : Option DT :=
  match l with
  | [u1, a1, a2, a3, a4, b1, b2, c1, c2, u2,
     e1, e2, f1, f2, g1, g2, dot, z1, z2, z3] =>
    if ((u1 == '_') && (u2 == '_') && (dot == '.')
        && a1.isDigit && a2.isDigit && a3.isDigit && a4.isDigit
        && b1.isDigit && b2.isDigit && c1.isDigit && c2.isDigit
        && e1.isDigit && e2.isDigit && f1.isDigit && f2.isDigit
        && g1.isDigit && g2.isDigit
        && (lowerChar z1 == 'z') && (lowerChar z2 == 'i') && (lowerChar z3 == 'p')) then
      let y := ((dval a1 * 10 + dval a2) * 10 + dval a3) * 10 + dval a4
      let mo := dval b1 * 10 + dval b2
      let dy := dval c1 * 10 + dval c2
      let h := dval e1 * 10 + dval e2
      let mi := dval f1 * 10 + dval f2
      let s := dval g1 * 10 + dval g2
      if 1 ≤ y ∧ y ≤ 9999 ∧ 1 ≤ mo ∧ mo ≤ 12 ∧ 1 ≤ dy ∧ dy ≤ daysInMonth y mo
          ∧ h ≤ 23 ∧ mi ≤ 59 ∧ s ≤ 59 then
        some ⟨y, mo, dy, h, mi, s⟩
      else none
    else none
  | _ => none

/-- The anchored regex match against a string already stripped of its
optional final newline: the string decomposes as `backup_`
(case-insensitive, 7 characters), a non-empty newline-free middle (the
`.+` group), and the 20-character tail. -/
def matchCore (s : Str) : Option DT :=
  if 28 ≤ s.length then
    if ((s.take (s.length - 20)).take 7).map lowerChar = ("backup_".toList)
        ∧ '\n' ∉ (s.take (s.length - 20)).drop 7 then
      parseTail (s.drop (s.length - 20))
    else none
  else none

/-- Model of `_date_from_backup_filename` (src/backup.py lines 178-192):
`re.match(r"backup_.+_(\d{8})_(\d{6})\.zip$", name, re.IGNORECASE)`, then
`strptime` interpreted as UTC.  Since the part of the pattern after `.+`
has fixed length 20 and the match is anchored at the start and (by `$`) at
the end, the regex matches exactly when: after optionally dropping one
final newline (`$` also matches just before a trailing newline), the
string is `backup_` (case-insensitive) ++ a non-empty run of
non-newline characters ++ the 20-character tail. -/
def date_from_backup_filename (nm : Str) : Option DT :=
  matchCore (if nm.getLast? = some '\n' then nm.dropLast else nm)

example : date_from_backup_filename ("backup_x_20250309_100000.zip".toList)
    = some ⟨2025, 3, 9, 10, 0, 0⟩ := by decide

example : date_from_backup_filename ("backup_x_20250332_100000.zip".toList) = none := by
  decide

example : backupFilename ("site".toList) ⟨2025, 2, 9, 12, 0, 0⟩
    = ("backup_site_20250209_120000.zip".toList) := by decide

/-! ## Remote directory listing (`get_backup_files`, lines 195-228)

The HTTP/XML layer is an external collaborator; it is abstracted to the
list of per-response data the source extracts from the multi-status
document: the `href` text (absent when the element or its text is
missing), whether a `prop` element is present, and the text of the
`getlastmodified` element inside it (absent when the element is missing or
its text is `None`; the empty string stands for empty text).
`parsedate_to_datetime` is a library routine, abstracted as a parameter
`pd`; the source wraps it in `try/except`, so `pd` returning `none` covers
both an unparsable date and a raised exception. -/

/-- One `d:response` of the multi-status payload, reduced to the data the
source reads from it. -/
structure DavResponse where
  href : Option Str
  hasProp : Bool
  lastmodified : Option Str
  deriving DecidableEq

/-- An element of the list returned by `get_backup_files`: the dict
`{"name": ..., "last_modified": ...}`. -/
structure RemoteEntry where
  name : Str
  last_modified : Option DT
  deriving DecidableEq

/-- Python `str.rstrip("/")`: remove every trailing slash. -/
def rstripSlashes (s : Str) : Str :=
  (s.reverse.dropWhile (fun c => c == '/')).reverse

/-- Python `s.split("/")[-1]`: the suffix after the last slash (the whole
string when there is no slash). -/
def lastSegment (s : Str) : Str :=
  (s.reverse.takeWhile (fun c => !(c == '/'))).reverse

/-- Timestamp resolution for one kept entry (lines 217-226): filename
parse first; on failure the `getlastmodified` text if present and
non-empty, through `pd`; otherwise absent. -/
def resolveTimestamp (pd : Str → Option DT) (name : Str) (lastmod : Option Str) :
    Option DT :=
  match date_from_backup_filename name with
  | some t => some t
  | none =>
    match lastmod with
    | some s => if s ≠ [] then pd s else none
    | none => none

/-- Processing of one response (lines 208-227): skip it when `href` or
`prop` is missing; right-strip slashes from the href; skip it when the
stripped href equals the stripped remote directory or (dead after the
strip) still ends in a slash; otherwise keep the last path segment as the
name, with the resolved timestamp. -/
def listEntry (pd : Str → Option DT) (remote_dir : Str) (r : DavResponse) :
    Option RemoteEntry :=
  match r.href with
  | none => none
  | some h0 =>
    if r.hasProp then
      let href := rstripSlashes h0
      if href = rstripSlashes remote_dir ∨ href.getLast? = some '/' then none
      else
        let name := lastSegment href
        some ⟨name, resolveTimestamp pd name r.lastmodified⟩
    else none

/-- Model of `get_backup_files`: the entry list produced from a
multi-status payload. -/
def get_backup_files (pd : Str → Option DT) (remote_dir : Str)
    (rs : List DavResponse) : List RemoteEntry :=
  rs.filterMap (listEntry pd remote_dir)

/-! ## GFS retention classifier (`_gfs_to_keep`, lines 231-277) -/

/-- Day-of-week-based year characteristic used by the ISO week-number
formula. -/
def pIso (y : Int) : Int :=
  (y + y.fdiv 4 - y.fdiv 100 + y.fdiv 400).emod 7

/-- Number of ISO weeks in year `y` (52 or 53). -/
def isoWeeksInYear (y : Int) : Int :=
  if pIso y = 4 ∨ pIso (y - 1) = 3 then 53 else 52

/-- ISO 8601 week number of the date `(y, m, d)`, as returned by Python's
`date.isocalendar()[1]`. -/
def isoWeek (y : Int) (m d : Nat) : Int :=
  let g := daysFromCivil y m d
  let doy := g - daysFromCivil y 1 1 + 1
  let dow := (g + 3).emod 7 + 1
  let w := (doy - dow + 10).fdiv 7
  if w < 1 then isoWeeksInYear (y - 1)
  else if isoWeeksInYear y < w then 1
  else w

/-- Bucket key `mod_utc.date()`. -/
def dateKey (t : DT) : Nat × Nat × Nat := (t.year, t.month, t.day)

/-- Bucket key `(mod_utc.year, mod_utc.isocalendar()[1])` (note: the plain
calendar year, not the ISO year). -/
def weekKey (t : DT) : Nat × Int := (t.year, isoWeek (t.year : Int) t.month t.day)

/-- Bucket key `(mod_utc.year, mod_utc.month)`. -/
def monthKey (t : DT) : Nat × Nat := (t.year, t.month)

/-- The cutoff `now_utc - timedelta(days=son_days)`, in epoch seconds. -/
def cutoffSon (now : DT) (son_days : Int) : Int := toSec now - son_days * 86400

/-- The cutoff `now_utc - timedelta(weeks=father_weeks)`. -/
def cutoffFather (now : DT) (father_weeks : Int) : Int :=
  toSec now - father_weeks * 7 * 86400

/-- The cutoff `now_utc - timedelta(days=grandfather_months * 30)`. -/
def cutoffGrandfather (now : DT) (grandfather_months : Int) : Int :=
  toSec now - grandfather_months * 30 * 86400

/-- Python-dict update `if key not in d or mod_utc > d[key][1]: d[key] = v`
on an insertion-ordered association list: a fresh key is appended, an
existing key keeps its position and is replaced only by a strictly later
timestamp (first-seen wins ties). -/
def bucketAdd {K : Type} [DecidableEq K] (key : K) (v : Str × DT) :
    List (K × (Str × DT)) → List (K × (Str × DT))
  | [] => [(key, v)]
  | (k, w) :: rest =>
    if k = key then (if toSec w.2 < toSec v.2 then (k, v) else (k, w)) :: rest
    else (k, w) :: bucketAdd key v rest

/-- The three bucket dicts `by_day`, `by_week`, `by_month`. -/
structure Buckets where
  by_day : List ((Nat × Nat × Nat) × (Str × DT))
  by_week : List ((Nat × Int) × (Str × DT))
  by_month : List ((Nat × Nat) × (Str × DT))
  deriving DecidableEq

/-- Loop body of `_gfs_to_keep` (lines 248-268): skip an item with a
missing or empty name or a missing timestamp; otherwise classify by the
if/elif/elif cutoff chain and update the one bucket dict chosen. -/
def gfsStep (now : DT) (sd fw gm : Int) (b : Buckets) :
    Option Str × Option DT → Buckets
  | (name?, mod?) =>
    match name?, mod? with
    | some name, some mod =>
      if name = [] then b
      else if cutoffSon now sd ≤ toSec mod then
        { b with by_day := bucketAdd (dateKey mod) (name, mod) b.by_day }
      else if cutoffFather now fw ≤ toSec mod then
        { b with by_week := bucketAdd (weekKey mod) (name, mod) b.by_week }
      else if cutoffGrandfather now gm ≤ toSec mod then
        { b with by_month := bucketAdd (monthKey mod) (name, mod) b.by_month }
      else b
    | _, _ => b

/-- The bucket dicts after the classification loop of `_gfs_to_keep`. -/
def gfsBuckets (files : List (Option Str × Option DT)) (now : DT)
    (sd fw gm : Int) : Buckets :=
  files.foldl (gfsStep now sd fw gm) ⟨[], [], []⟩

/-- Model of `_gfs_to_keep`: the names of the per-day, per-week and
per-month survivors (the Python `set` is modelled by list membership). -/
def gfs_to_keep (files : List (Option Str × Option DT)) (now : DT)
    (sd fw gm : Int) : List Str :=
  let b := gfsBuckets files now sd fw gm
  b.by_day.map (fun p => p.2.1) ++ b.by_week.map (fun p => p.2.1)
    ++ b.by_month.map (fun p => p.2.1)

/-! ## Remote pruning (`delete_from_server`, lines 280-320) -/

/-- Deletion test of the flat-window branch (lines 312-317): an entry with
no timestamp is skipped; otherwise `(now - mod_utc).days >= retention_days`,
where `timedelta.days` is floor division of the difference by 86400. -/
def flatDelete (now : DT) (retention_days : Int) (e : RemoteEntry) : Bool :=
  match e.last_modified with
  | none => false
  | some t => retention_days ≤ (toSec now - toSec t).fdiv 86400

/-- Names the flat-window branch issues DELETE for. -/
def flat_prune_deletes (files : List RemoteEntry) (now : DT)
    (retention_days : Int) : List Str :=
  (files.filter (flatDelete now retention_days)).map (fun e => e.name)

/-- GFS-branch preprocessing (lines 296-303): an entry with an absent
timestamp gets `now`. -/
def filesWithDates (files : List RemoteEntry) (now : DT) :
    List (Option Str × Option DT) :=
  files.map (fun e => ((some e.name : Option Str), some (e.last_modified.getD now)))

/-- Names the GFS branch issues DELETE for (lines 304-309): every listed
entry whose name is not in the keep-set. -/
def gfs_prune_deletes (files : List RemoteEntry) (now : DT)
    (sd fw gm : Int) : List Str :=
  let keep := gfs_to_keep (filesWithDates files now) now sd fw gm
  (files.filter (fun e => !(keep.contains e.name))).map (fun e => e.name)

/-- Defaulting `int(cfg.get(k) or d)` for an integer-valued configuration
entry: an absent value and the (falsy) value 0 both give the default. -/
def orDefault (v : Option Int) (d : Int) : Int :=
  match v with
  | none => d
  | some x => if x = 0 then d else x

/-- The three GFS parameters as read on lines 293-295. -/
def gfsParams (son_days father_weeks grandfather_months : Option Int) :
    Int × Int × Int :=
  (orDefault son_days 7, orDefault father_weeks 4, orDefault grandfather_months 12)

/-- The flat-window parameter as read on line 311. -/
def retentionDaysParam (v : Option Int) : Int := orDefault v 7

/-! ## Upload outcome (`upload`, lines 149-167) and the per-project run
(`main`, lines 329-338) -/

/-- The message part of the pair `upload` returns, one constructor per
return statement. -/
inductive UploadMsg
  | ok (code : Nat)
  | parentMissing
  | permissionDenied
  | httpError (code : Nat) (body : Str)
  deriving DecidableEq

/-- Status-code mapping of `upload` (lines 161-167): success on 201 or
204; 409 is the parent-collection-missing report; 403 the permission
report; anything else the generic failure carrying status and body. -/
def uploadOutcome (code : Nat) (body : Str) : Bool × UploadMsg :=
  if code = 201 ∨ code = 204 then (true, .ok code)
  else if code = 409 then (false, .parentMissing)
  else if code = 403 then (false, .permissionDenied)
  else (false, .httpError code body)

/-- The observable steps of the per-project loop body of `main`. -/
inductive Action
  | buildArchive
  | uploadArchive
  | reportMessage (msg : UploadMsg)
  | deleteLocal
  deriving DecidableEq

/-- Per-project loop body of `main` (lines 329-338): build the archive,
attempt the upload, print the message (the same print on both branches of
the `if success`), then delete the local archive — unconditionally, after
the attempt. -/
def per_project_actions (uploadResult : Bool × UploadMsg) : List Action :=
  [Action.buildArchive, Action.uploadArchive]
    ++ (if uploadResult.1 then [Action.reportMessage uploadResult.2]
        else [Action.reportMessage uploadResult.2])
    ++ [Action.deleteLocal]

/-! ## Claim C1: the concrete GFS scenario -/

/-- The one-day-old entry of the scenario. -/
def scenarioName1 : Str := "backup_x_20250309_100000.zip".toList

/-- The father-range entry of the scenario. -/
def scenarioName2 : Str := "backup_x_20250215_100000.zip".toList

/-- The grandfather-range entry of the scenario. -/
def scenarioName3 : Str := "backup_x_20240501_100000.zip".toList

/-- The too-old entry of the scenario. -/
def scenarioName4 : Str := "backup_x_20220101_100000.zip".toList

/-- The scenario instant 2025-03-10T00:00:00Z. -/
def scenarioNow : DT := ⟨2025, 3, 10, 0, 0, 0⟩

/-- The scenario input: each name paired with its filename-derived UTC
timestamp. -/
def scenarioEntries : List (Option Str × Option DT) :=
  [scenarioName1, scenarioName2, scenarioName3, scenarioName4].map
    (fun n => ((some n : Option Str), date_from_backup_filename n))

/-- C1: for the GFS classifier with now = 2025-03-10T00:00:00Z,
son_days=7, father_weeks=4, grandfather_months=12, and the four entries
backup_x_20250309_100000.zip, backup_x_20250215_100000.zip,
backup_x_20240501_100000.zip, backup_x_20220101_100000.zip with their
filename-derived timestamps, the keep-set is exactly the first three names
and the fourth is not in it. -/
theorem gfs_scenario_keep_set :
    gfs_to_keep scenarioEntries scenarioNow 7 4 12
      = [scenarioName1, scenarioName2, scenarioName3]
    ∧ (gfs_to_keep scenarioEntries scenarioNow 7 4 12).contains scenarioName4
        = false := by
  decide

/-! ## Claim C3: the flat-window deletion rule -/

/-- C3: in flat-window mode an entry is deleted iff the whole-day
difference between now and its timestamp is at least `retention_days`; an
entry exactly `retention_days` old is deleted and one a day younger is
kept; an entry with no timestamp is never deleted; and the names the
branch deletes are exactly the names of listed entries passing this
test. -/
theorem flat_window_rule (now : DT) (retention_days : Int) (name : Str) (t : DT) :
    (∀ e : RemoteEntry, flatDelete now retention_days e = true ↔
        ∃ u, e.last_modified = some u
          ∧ retention_days ≤ (toSec now - toSec u).fdiv 86400)
    ∧ flatDelete now retention_days ⟨name, none⟩ = false
    ∧ (toSec now - toSec t = retention_days * 86400 →
        flatDelete now retention_days ⟨name, some t⟩ = true)
    ∧ (toSec now - toSec t = (retention_days - 1) * 86400 →
        flatDelete now retention_days ⟨name, some t⟩ = false)
    ∧ (∀ (files : List RemoteEntry) (n : Str),
        n ∈ flat_prune_deletes files now retention_days ↔
          ∃ e ∈ files, e.name = n ∧ flatDelete now retention_days e = true) := by
  refine ⟨?_, rfl, ?_, ?_, ?_⟩
  · intro e
    obtain ⟨nm, lm⟩ := e
    cases lm with
    | none => simp [flatDelete]
    | some u => simp [flatDelete, decide_eq_true_eq]
  · intro h
    simp only [flatDelete, h, Int.mul_fdiv_cancel _ (by norm_num : (86400 : Int) ≠ 0)]
    simp
  · intro h
    simp only [flatDelete, h, Int.mul_fdiv_cancel _ (by norm_num : (86400 : Int) ≠ 0)]
    simp only [decide_eq_false_iff_not]
    omega
  · intro files n
    simp only [flat_prune_deletes, List.mem_map, List.mem_filter]
    constructor
    · rintro ⟨e, ⟨he, hd⟩, rfl⟩
      exact ⟨e, he, rfl, hd⟩
    · rintro ⟨e, he, rfl, hd⟩
      exact ⟨e, ⟨he, hd⟩, rfl⟩

/-- C3 witness: with retention 7 days, an entry exactly 7 days old is
deleted and an entry 6 days old is kept. -/
theorem flat_window_rule_witness :
    (toSec ⟨2025, 1, 10, 0, 0, 0⟩ - toSec ⟨2025, 1, 3, 0, 0, 0⟩ = 7 * 86400
      ∧ flatDelete ⟨2025, 1, 10, 0, 0, 0⟩ 7 ⟨[], some ⟨2025, 1, 3, 0, 0, 0⟩⟩ = true)
    ∧ (toSec ⟨2025, 1, 10, 0, 0, 0⟩ - toSec ⟨2025, 1, 4, 0, 0, 0⟩ = (7 - 1) * 86400
      ∧ flatDelete ⟨2025, 1, 10, 0, 0, 0⟩ 7 ⟨[], some ⟨2025, 1, 4, 0, 0, 0⟩⟩ = false) :=
  ⟨⟨by decide,
    (flat_window_rule ⟨2025, 1, 10, 0, 0, 0⟩ 7 [] ⟨2025, 1, 3, 0, 0, 0⟩).2.2.1 (by decide)⟩,
   ⟨by decide,
    (flat_window_rule ⟨2025, 1, 10, 0, 0, 0⟩ 7 [] ⟨2025, 1, 4, 0, 0, 0⟩).2.2.2.1 (by decide)⟩⟩

/-! ## Claim C5: entries with no resolvable timestamp under GFS -/

/-- First no-timestamp entry of the failing input. -/
def noTsA : RemoteEntry := ⟨"backup_a.zip".toList, none⟩

/-- Second no-timestamp entry of the failing input. -/
def noTsB : RemoteEntry := ⟨"backup_b.zip".toList, none⟩

/-- C5: the GFS branch maps both no-timestamp entries to `now`, they
collide in the day bucket of now's date, only the first-seen one survives
the bucket, and the second is deleted — contradicting the source's own
comment ("unknown date → treat as now so we keep it") and the claim that
every such entry is kept. -/
theorem no_timestamp_entry_deleted :
    gfs_prune_deletes [noTsA, noTsB] ⟨2025, 3, 10, 0, 0, 0⟩ 7 4 12
      = [("backup_b.zip".toList)]
    ∧ (gfs_to_keep (filesWithDates [noTsA, noTsB] ⟨2025, 3, 10, 0, 0, 0⟩)
          ⟨2025, 3, 10, 0, 0, 0⟩ 7 4 12).contains ("backup_b.zip".toList)
        = false := by
  decide

/-! ## Claim C6: the upload status-code mapping -/

/-- C6 counterexample: status 200 is in the 2xx family but is mapped to
the generic failure, not to success. -/
theorem upload_200_not_success :
    uploadOutcome 200 [] = (false, UploadMsg.httpError 200 []) := by decide

/-- C6 (amended): success exactly on statuses 201 and 204; 409 yields the
parent-collection-missing report, 403 the permission report, and every
other status — including other 2xx codes — the generic failure carrying
the raw status and body. -/
theorem upload_outcome_mapping (code : Nat) (body : Str) :
    ((uploadOutcome code body).1 = true ↔ (code = 201 ∨ code = 204))
    ∧ uploadOutcome 409 body = (false, UploadMsg.parentMissing)
    ∧ uploadOutcome 403 body = (false, UploadMsg.permissionDenied)
    ∧ (¬ (code = 201 ∨ code = 204 ∨ code = 409 ∨ code = 403) →
        uploadOutcome code body = (false, UploadMsg.httpError code body)) := by
  refine ⟨?_, by simp [uploadOutcome], by simp [uploadOutcome], ?_⟩
  · unfold uploadOutcome
    split_ifs with h1 h2 h3 <;> simp_all
  · intro h
    unfold uploadOutcome
    split_ifs with h1 h2 h3 <;> simp_all

/-- C6 witness: status 500 maps to the generic failure. -/
theorem upload_outcome_mapping_witness :
    ¬ (500 = 201 ∨ 500 = 204 ∨ 500 = 409 ∨ 500 = 403)
    ∧ uploadOutcome 500 [] = (false, UploadMsg.httpError 500 []) :=
  ⟨by decide, (upload_outcome_mapping 500 []).2.2.2 (by decide)⟩

/-! ## Claim C9: unconditional local deletion after the upload attempt -/

/-- C9: the per-project run performs exactly build, upload, report,
local-delete in that order whatever the upload result, so the local
archive is deleted after every attempted upload, successful or not. -/
theorem local_archive_always_deleted (r : Bool × UploadMsg) :
    per_project_actions r
      = [Action.buildArchive, Action.uploadArchive,
         Action.reportMessage r.2, Action.deleteLocal]
    ∧ Action.deleteLocal ∈ per_project_actions r := by
  obtain ⟨s, m⟩ := r
  cases s <;> simp [per_project_actions]

/-! ## Claim C10: falsy configuration values fall back to the defaults -/

/-- C10: a configured value of 0 for son_days, father_weeks,
grandfather_months or retention_days is coerced to the default (7, 4, 12,
7 respectively), exactly as an absent value is, because the source
defaults with the falsy-test idiom `int(cfg.get(k) or d)`. -/
theorem zero_config_params_coerced_to_defaults :
    gfsParams (some 0) (some 0) (some 0) = (7, 4, 12)
    ∧ gfsParams none none none = (7, 4, 12)
    ∧ retentionDaysParam (some 0) = 7
    ∧ retentionDaysParam none = 7 := by
  decide

/-! ## Claim C4: exclusions in the remote-directory listing -/

/-- A payload holding the directory's own href and a nested-collection
href (trailing separator). -/
def subDirPayload : List DavResponse :=
  [⟨some ("/remote.php/dav/files/u/dir".toList), true, none⟩,
   ⟨some ("/remote.php/dav/files/u/dir/sub/".toList), true, none⟩]

/-- C4 counterexample: the directory's own href is excluded, but the
nested-collection href `.../dir/sub/` is NOT — the trailing slashes are
right-stripped before the trailing-separator test, so that test never
fires and the sub-collection survives as an entry named by its last
segment. -/
theorem listing_keeps_nested_collection :
    (get_backup_files (fun _ => none) ("/remote.php/dav/files/u/dir".toList)
        subDirPayload).map (fun e => e.name) = [("sub".toList)] := by
  decide

/-- C4 (amended): the listing always excludes the directory's own entry —
any response whose right-stripped href equals the right-stripped remote
directory produces no entry — but nested-collection entries are not
excluded; a trailing-separator href distinct from the directory's own is
kept, named by its last non-separator segment. -/
theorem listing_excludes_own_href (pd : Str → Option DT) (remote_dir : Str)
    (rs : List DavResponse) (r : DavResponse) (h0 : Str)
    (hr : r.href = some h0)
    (hself : rstripSlashes h0 = rstripSlashes remote_dir) :
    listEntry pd remote_dir r = none
    ∧ get_backup_files pd remote_dir (r :: rs) = get_backup_files pd remote_dir rs := by
  have h1 : listEntry pd remote_dir r = none := by
    unfold listEntry
    rw [hr]
    cases hp : r.hasProp with
    | false => simp
    | true => simp [hself]
  exact ⟨h1, by simp [get_backup_files, List.filterMap_cons, h1]⟩

/-- C4 witness: a response carrying the directory's own href (with a
trailing separator) contributes no entry. -/
theorem listing_excludes_own_href_witness :
    (⟨some ("/remote.php/dav/files/u/d/".toList), true, none⟩ : DavResponse).href
        = some ("/remote.php/dav/files/u/d/".toList)
    ∧ rstripSlashes ("/remote.php/dav/files/u/d/".toList)
        = rstripSlashes ("/remote.php/dav/files/u/d".toList)
    ∧ listEntry (fun _ => none) ("/remote.php/dav/files/u/d".toList)
        ⟨some ("/remote.php/dav/files/u/d/".toList), true, none⟩ = none :=
  ⟨rfl, by decide,
   (listing_excludes_own_href (fun _ => none) ("/remote.php/dav/files/u/d".toList) []
      ⟨some ("/remote.php/dav/files/u/d/".toList), true, none⟩
      ("/remote.php/dav/files/u/d/".toList) rfl (by decide)).1⟩

/-! ## Claim C7: per-entry timestamp precedence and fault isolation -/

/-- The name produced for one response does not depend on the
last-modified parser: per-entry metadata can only affect the timestamp. -/
theorem listEntry_name_independent_of_pd (pd pd' : Str → Option DT)
    (remote_dir : Str) (r : DavResponse) :
    (listEntry pd remote_dir r).map (fun e => e.name)
      = (listEntry pd' remote_dir r).map (fun e => e.name) := by
  obtain ⟨href?, hasProp, lm⟩ := r
  cases href? with
  | none => rfl
  | some h0 =>
    cases hasProp with
    | false => rfl
    | true =>
      by_cases hskip : rstripSlashes h0 = rstripSlashes remote_dir
          ∨ (rstripSlashes h0).getLast? = some '/'
      · simp [listEntry, hskip]
      · simp [listEntry, hskip]

/-- C7: for every kept entry the timestamp is the filename-derived one
when the filename parses, else the store-reported last-modified time when
present, non-empty and parsable, else absent; and unparsable metadata
never drops entries — the list of kept names is the same whatever the
metadata parser returns. -/
theorem listing_timestamp_precedence (pd pd' : Str → Option DT)
    (remote_dir : Str) (rs : List DavResponse) (name : Str)
    (lm : Option Str) (t : DT) :
    ((get_backup_files pd remote_dir rs).map (fun e => e.name)
      = (get_backup_files pd' remote_dir rs).map (fun e => e.name))
    ∧ (date_from_backup_filename name = some t →
        resolveTimestamp pd name lm = some t)
    ∧ (date_from_backup_filename name = none → ∀ s, lm = some s → s ≠ [] →
        resolveTimestamp pd name lm = pd s)
    ∧ (date_from_backup_filename name = none →
        (lm = none ∨ lm = some []) → resolveTimestamp pd name lm = none)
    ∧ (∀ r ∈ rs, ∀ e, listEntry pd remote_dir r = some e →
        e.last_modified = resolveTimestamp pd e.name r.lastmodified) := by
  refine ⟨?_, ?_, ?_, ?_, ?_⟩
  · induction rs with
    | nil => rfl
    | cons r rest ih =>
      have hr := listEntry_name_independent_of_pd pd pd' remote_dir r
      simp only [get_backup_files, List.filterMap_cons] at *
      cases h : listEntry pd remote_dir r with
      | none =>
        rw [h] at hr
        cases h' : listEntry pd' remote_dir r with
        | none => exact ih
        | some e' => rw [h'] at hr; simp at hr
      | some e =>
        rw [h] at hr
        cases h' : listEntry pd' remote_dir r with
        | none => rw [h'] at hr; simp at hr
        | some e' =>
          rw [h'] at hr
          have hname : e.name = e'.name := by simpa using hr
          simp [List.map_cons, ih, hname]
  · intro h
    unfold resolveTimestamp
    rw [h]
  · intro h s hs hne
    unfold resolveTimestamp
    rw [h, hs]
    simp [hne]
  · intro h hlm
    unfold resolveTimestamp
    rw [h]
    rcases hlm with h' | h' <;> simp [h', resolveTimestamp]
  · intro r hr e he
    obtain ⟨href?, hasProp, lm'⟩ := r
    cases href? with
    | none => exact Option.noConfusion he
    | some h0 =>
      cases hasProp with
      | false => exact Option.noConfusion he
      | true =>
        by_cases hskip : rstripSlashes h0 = rstripSlashes remote_dir
            ∨ (rstripSlashes h0).getLast? = some '/'
        · have hnone : listEntry pd remote_dir ⟨some h0, true, lm'⟩ = none := by
            have hbody : listEntry pd remote_dir ⟨some h0, true, lm'⟩
                = if rstripSlashes h0 = rstripSlashes remote_dir
                      ∨ (rstripSlashes h0).getLast? = some '/' then none
                  else some ⟨lastSegment (rstripSlashes h0),
                    resolveTimestamp pd (lastSegment (rstripSlashes h0)) lm'⟩ := rfl
            rw [hbody, if_pos hskip]
          rw [hnone] at he
          exact Option.noConfusion he
        · have hbody : listEntry pd remote_dir ⟨some h0, true, lm'⟩
              = if rstripSlashes h0 = rstripSlashes remote_dir
                    ∨ (rstripSlashes h0).getLast? = some '/' then none
                else some ⟨lastSegment (rstripSlashes h0),
                  resolveTimestamp pd (lastSegment (rstripSlashes h0)) lm'⟩ := rfl
          rw [hbody, if_neg hskip, Option.some.injEq] at he
          subst he
          rfl

/-- C7 witness: a parsable filename wins over any metadata parser, an
unparsable one falls back to the parsed metadata. -/
theorem listing_timestamp_precedence_witness :
    (date_from_backup_filename ("backup_x_20250309_100000.zip".toList)
        = some ⟨2025, 3, 9, 10, 0, 0⟩
      ∧ resolveTimestamp (fun _ => some ⟨1999, 1, 1, 0, 0, 0⟩)
          ("backup_x_20250309_100000.zip".toList) (some ("ignored".toList))
          = some ⟨2025, 3, 9, 10, 0, 0⟩)
    ∧ (date_from_backup_filename ("other.bin".toList) = none
      ∧ resolveTimestamp (fun _ => some ⟨1999, 1, 1, 0, 0, 0⟩)
          ("other.bin".toList) (some ("Mon, 01 Jan 1999 00:00:00 GMT".toList))
          = (fun (_ : Str) => some (⟨1999, 1, 1, 0, 0, 0⟩ : DT))
              ("Mon, 01 Jan 1999 00:00:00 GMT".toList)) :=
  ⟨⟨by decide,
    (listing_timestamp_precedence (fun _ => some ⟨1999, 1, 1, 0, 0, 0⟩)
      (fun _ => none) [] [] ("backup_x_20250309_100000.zip".toList)
      (some ("ignored".toList)) ⟨2025, 3, 9, 10, 0, 0⟩).2.1 (by decide)⟩,
   ⟨by decide,
    (listing_timestamp_precedence (fun _ => some ⟨1999, 1, 1, 0, 0, 0⟩)
      (fun _ => none) [] [] ("other.bin".toList)
      (some ("Mon, 01 Jan 1999 00:00:00 GMT".toList)) ⟨2025, 3, 9, 10, 0, 0⟩).2.2.1
      (by decide) ("Mon, 01 Jan 1999 00:00:00 GMT".toList) rfl (by decide)⟩⟩

/-! ## Claim C8: GFS tier exclusivity -/

/-- Bool membership of a timestamp among the values of a bucket dict. -/
def tsInBucket {K : Type} [DecidableEq K] (t : DT)
    (m : List (K × (Str × DT))) : Bool :=
  m.any (fun p => p.2.2 == t)

/-- Every stored timestamp of a bucket dict satisfies `Q`. -/
def allTs {K : Type} (Q : DT → Prop) (m : List (K × (Str × DT))) : Prop :=
  ∀ p ∈ m, Q p.2.2

theorem allTs_bucketAdd {K : Type} [DecidableEq K] {Q : DT → Prop} {key : K}
    {v : Str × DT} {m : List (K × (Str × DT))}
    (hv : Q v.2) (hm : allTs Q m) : allTs Q (bucketAdd key v m) := by
  induction m with
  | nil =>
    intro p hp
    simp only [bucketAdd, List.mem_singleton] at hp
    subst hp
    exact hv
  | cons a rest ih =>
    obtain ⟨k, w⟩ := a
    have hw : Q w.2 := hm (k, w) (List.mem_cons_self _ _)
    have hrest : allTs Q rest := fun p hp => hm p (List.mem_cons_of_mem _ hp)
    intro p hp
    simp only [bucketAdd] at hp
    split_ifs at hp with hk ht
    · rcases List.mem_cons.mp hp with h | h
      · subst h; exact hv
      · exact hrest p h
    · rcases List.mem_cons.mp hp with h | h
      · subst h; exact hw
      · exact hrest p h
    · rcases List.mem_cons.mp hp with h | h
      · subst h; exact hw
      · exact ih hrest p h

/-- The band invariant of the classification loop: day-bucket timestamps
are at or after the son cutoff, week-bucket ones strictly before it and at
or after the father cutoff, month-bucket ones strictly before the father
cutoff. -/
def bucketsInv (now : DT) (sd fw : Int) (b : Buckets) : Prop :=
  allTs (fun t => cutoffSon now sd ≤ toSec t) b.by_day
    ∧ allTs (fun t => toSec t < cutoffSon now sd
        ∧ cutoffFather now fw ≤ toSec t) b.by_week
    ∧ allTs (fun t => toSec t < cutoffSon now sd
        ∧ toSec t < cutoffFather now fw) b.by_month

theorem gfsStep_inv (now : DT) (sd fw gm : Int) (b : Buckets)
    (x : Option Str × Option DT) (h : bucketsInv now sd fw b) :
    bucketsInv now sd fw (gfsStep now sd fw gm b x) := by
  obtain ⟨hd, hw, hm⟩ := h
  obtain ⟨name?, mod?⟩ := x
  cases name? with
  | none => exact ⟨hd, hw, hm⟩
  | some name =>
    cases mod? with
    | none => exact ⟨hd, hw, hm⟩
    | some mod =>
      have hstep : gfsStep now sd fw gm b (some name, some mod)
          = if name = [] then b
            else if cutoffSon now sd ≤ toSec mod then
              { b with by_day := bucketAdd (dateKey mod) (name, mod) b.by_day }
            else if cutoffFather now fw ≤ toSec mod then
              { b with by_week := bucketAdd (weekKey mod) (name, mod) b.by_week }
            else if cutoffGrandfather now gm ≤ toSec mod then
              { b with by_month := bucketAdd (monthKey mod) (name, mod) b.by_month }
            else b := rfl
      rw [hstep]
      by_cases he : name = []
      · rw [if_pos he]; exact ⟨hd, hw, hm⟩
      rw [if_neg he]
      by_cases h1 : cutoffSon now sd ≤ toSec mod
      · rw [if_pos h1]
        exact ⟨allTs_bucketAdd (show cutoffSon now sd ≤ toSec mod from h1)
          hd, hw, hm⟩
      rw [if_neg h1]
      by_cases h2 : cutoffFather now fw ≤ toSec mod
      · rw [if_pos h2]
        exact ⟨hd, allTs_bucketAdd
          (show toSec mod < cutoffSon now sd
              ∧ cutoffFather now fw ≤ toSec mod from ⟨by omega, h2⟩)
          hw, hm⟩
      rw [if_neg h2]
      by_cases h3 : cutoffGrandfather now gm ≤ toSec mod
      · rw [if_pos h3]
        exact ⟨hd, hw, allTs_bucketAdd
          (show toSec mod < cutoffSon now sd
              ∧ toSec mod < cutoffFather now fw from ⟨by omega, by omega⟩)
          hm⟩
      rw [if_neg h3]
      exact ⟨hd, hw, hm⟩

theorem gfsBuckets_inv (files : List (Option Str × Option DT)) (now : DT)
    (sd fw gm : Int) :
    bucketsInv now sd fw (gfsBuckets files now sd fw gm) := by
  have hgen : ∀ (l : List (Option Str × Option DT)) (b : Buckets),
      bucketsInv now sd fw b →
      bucketsInv now sd fw (l.foldl (gfsStep now sd fw gm) b) := by
    intro l
    induction l with
    | nil => intro b hb; exact hb
    | cons x xs ih =>
      intro b hb
      exact ih _ (gfsStep_inv now sd fw gm b x hb)
  exact hgen files ⟨[], [], []⟩
    ⟨fun p hp => absurd hp (List.not_mem_nil p),
     fun p hp => absurd hp (List.not_mem_nil p),
     fun p hp => absurd hp (List.not_mem_nil p)⟩

theorem tsInBucket_sat {K : Type} [DecidableEq K] {Q : DT → Prop} {t : DT}
    {m : List (K × (Str × DT))} (hm : allTs Q m)
    (ht : tsInBucket t m = true) : Q t := by
  rcases List.any_eq_true.mp ht with ⟨p, hp, hpt⟩
  have : p.2.2 = t := by simpa using hpt
  exact this ▸ hm p hp

/-- C8: for every input and all parameters, no timestamp sits in more
than one of the three bucket dicts — each dated entry lands in at most one
cutoff band (the if/elif/elif chain makes the bands disjoint functions of
the timestamp).  This covers in particular all non-negative parameter
choices. -/
theorem gfs_tier_exclusivity (files : List (Option Str × Option DT))
    (now : DT) (sd fw gm : Int) (t : DT) :
    (tsInBucket t (gfsBuckets files now sd fw gm).by_day).toNat
      + (tsInBucket t (gfsBuckets files now sd fw gm).by_week).toNat
      + (tsInBucket t (gfsBuckets files now sd fw gm).by_month).toNat ≤ 1 := by
  obtain ⟨hd, hw, hm⟩ := gfsBuckets_inv files now sd fw gm
  cases h1 : tsInBucket t (gfsBuckets files now sd fw gm).by_day
    <;> cases h2 : tsInBucket t (gfsBuckets files now sd fw gm).by_week
    <;> cases h3 : tsInBucket t (gfsBuckets files now sd fw gm).by_month
  · simp
  · simp
  · simp
  · exact absurd (tsInBucket_sat hw h2).2 (not_le.mpr (tsInBucket_sat hm h3).2)
  · simp
  · exact absurd (tsInBucket_sat hd h1) (not_le.mpr (tsInBucket_sat hm h3).1)
  · exact absurd (tsInBucket_sat hd h1) (not_le.mpr (tsInBucket_sat hw h2).1)
  · exact absurd (tsInBucket_sat hd h1) (not_le.mpr (tsInBucket_sat hw h2).1)

/-! ## Claim C2: the archive-name round trip -/

theorem dchar_isDigit {k : Nat} (h : k < 10) : (dchar k).isDigit = true := by
  interval_cases k <;> decide

theorem dval_dchar {k : Nat} (h : k < 10) : dval (dchar k) = k := by
  interval_cases k <;> decide

theorem dchar_mod_isDigit (n : Nat) : (dchar (n % 10)).isDigit = true :=
  dchar_isDigit (Nat.mod_lt _ (by omega))

theorem dval_dchar_mod (n : Nat) : dval (dchar (n % 10)) = n % 10 :=
  dval_dchar (Nat.mod_lt _ (by omega))

theorem decode4_pad (n : Nat) (h : n ≤ 9999) :
    ((dval (dchar (n / 1000 % 10)) * 10 + dval (dchar (n / 100 % 10))) * 10
      + dval (dchar (n / 10 % 10))) * 10 + dval (dchar (n % 10)) = n := by
  simp only [dval_dchar_mod]
  omega

theorem decode2_pad (n : Nat) (h : n ≤ 99) :
    dval (dchar (n / 10 % 10)) * 10 + dval (dchar (n % 10)) = n := by
  simp only [dval_dchar_mod]
  omega

theorem daysInMonth_le (y m : Nat) : daysInMonth y m ≤ 31 := by
  unfold daysInMonth
  split_ifs <;> omega

/-- The regex tail built from valid zero-padded fields parses back to the
same fields. -/
theorem parseTail_pads (y mo dy hh mi ss : Nat)
    (h1 : 1 ≤ y) (h2 : y ≤ 9999) (h3 : 1 ≤ mo) (h4 : mo ≤ 12)
    (h5 : 1 ≤ dy) (h6 : dy ≤ daysInMonth y mo)
    (h7 : hh ≤ 23) (h8 : mi ≤ 59) (h9 : ss ≤ 59) :
    parseTail ('_' :: (pad4 y ++ (pad2 mo ++ (pad2 dy
        ++ ('_' :: (pad2 hh ++ (pad2 mi ++ (pad2 ss ++ ".zip".toList))))))))
      = some ⟨y, mo, dy, hh, mi, ss⟩ := by
  have hz : (lowerChar 'z' == 'z') = true := by decide
  have hi : (lowerChar 'i' == 'i') = true := by decide
  have hp : (lowerChar 'p' == 'p') = true := by decide
  have hzip : ".zip".toList = ['.', 'z', 'i', 'p'] := rfl
  have hdim := daysInMonth_le y mo
  simp only [pad4, pad2, hzip, List.cons_append, List.nil_append]
  simp only [parseTail, dchar_mod_isDigit, hz, hi, hp, beq_self_eq_true,
    Bool.and_true, Bool.true_and, Bool.and_self, if_true, eq_self_iff_true]
  simp only [decode4_pad y h2, decode2_pad mo (by omega), decode2_pad dy (by omega),
    decode2_pad hh (by omega), decode2_pad mi (by omega), decode2_pad ss (by omega)]
  rw [if_pos ⟨h1, h2, h3, h4, h5, h6, h7, h8, h9⟩]

/-- C2 counterexample: the timestamp 0005-01-01T00:00:00 is a valid
second-resolution timestamp and the identifier x breaks nothing, but
strftime renders the year unpadded, giving backup_x_50101_000000.zip,
which the anchored 8-digit parser rejects — the round trip fails. -/
theorem backup_name_roundtrip_fails_small_year :
    validDT ⟨5, 1, 1, 0, 0, 0⟩
    ∧ ("x".toList).length = 1
    ∧ ("x".toList).contains '\n' = false
    ∧ backupFilename ("x".toList) ⟨5, 1, 1, 0, 0, 0⟩
        = ("backup_x_50101_000000.zip".toList)
    ∧ date_from_backup_filename (backupFilename ("x".toList) ⟨5, 1, 1, 0, 0, 0⟩)
        = none := by
  decide

/-- C2 (amended): for every non-empty identifier free of newline
characters and every valid second-resolution timestamp whose year is at
least 1000 (so that strftime %Y renders exactly four digits), parsing the
formatted archive name recovers the timestamp exactly. -/
theorem backup_name_roundtrip (projectId : Str) (t : DT)
    (hne : projectId ≠ []) (hnl : '\n' ∉ projectId) (hv : validDT t)
    (hy : 1000 ≤ t.year) :
    date_from_backup_filename (backupFilename projectId t) = some t := by
  obtain ⟨y, mo, dy, hh, mi, ss⟩ := t
  obtain ⟨h1, h2, h3, h4, h5, h6, h7, h8, h9⟩ := hv
  have hy' : 1000 ≤ y := hy
  have hyc : yearChars y = pad4 y := by
    unfold yearChars
    rw [if_neg (by omega), if_neg (by omega), if_neg (by omega)]
  have hform : backupFilename projectId ⟨y, mo, dy, hh, mi, ss⟩
      = ("backup_".toList ++ projectId)
        ++ ('_' :: (pad4 y ++ (pad2 mo ++ (pad2 dy
            ++ ('_' :: (pad2 hh ++ (pad2 mi ++ (pad2 ss ++ ".zip".toList)))))))) := by
    simp only [backupFilename, hyc, List.append_assoc, List.cons_append]
  rw [hform]
  set PID : Str := "backup_".toList ++ projectId with hPID
  set T : Str := '_' :: (pad4 y ++ (pad2 mo ++ (pad2 dy
      ++ ('_' :: (pad2 hh ++ (pad2 mi ++ (pad2 ss ++ ".zip".toList))))))) with hT
  have hT20 : T.length = 20 := by rw [hT]; rfl
  have hTlast : T.getLast? = some 'p' := by rw [hT]; rfl
  have hTne : T ≠ [] := by rw [hT]; exact List.cons_ne_nil _ _
  have hlast : (PID ++ T).getLast? = some 'p' := by
    rw [List.getLast?_append_of_ne_nil _ hTne, hTlast]
  have hstrip : date_from_backup_filename (PID ++ T) = matchCore (PID ++ T) := by
    unfold date_from_backup_filename
    rw [hlast, if_neg (by decide)]
  have hPlen : ("backup_".toList).length = 7 := rfl
  have hidpos : 1 ≤ projectId.length := List.length_pos.mpr hne
  have hPIDlen : PID.length = 7 + projectId.length := by
    rw [hPID, List.length_append, hPlen]
  have hslen : (PID ++ T).length = PID.length + 20 := by
    rw [List.length_append, hT20]
  have hsub : (PID ++ T).length - 20 = PID.length := by omega
  rw [hstrip]
  unfold matchCore
  rw [hsub, List.take_left, List.drop_left, if_pos (by omega : 28 ≤ (PID ++ T).length)]
  rw [hPID, List.take_left' hPlen, List.drop_left' hPlen]
  have hmap : ("backup_".toList).map lowerChar = ("backup_".toList) := by decide
  rw [if_pos ⟨hmap, hnl⟩, hT]
  exact parseTail_pads y mo dy hh mi ss h1 h2 h3 h4 h5 h6 h7 h8 h9

/-- C2 witness: the amended round trip at a concrete identifier and
timestamp. -/
theorem backup_name_roundtrip_witness :
    (("x".toList) ≠ [] ∧ '\n' ∉ ("x".toList)
      ∧ validDT ⟨2025, 3, 9, 10, 0, 0⟩ ∧ 1000 ≤ (⟨2025, 3, 9, 10, 0, 0⟩ : DT).year)
    ∧ date_from_backup_filename (backupFilename ("x".toList) ⟨2025, 3, 9, 10, 0, 0⟩)
        = some ⟨2025, 3, 9, 10, 0, 0⟩ :=
  ⟨⟨by decide, by decide, by decide, by decide⟩,
   backup_name_roundtrip ("x".toList) ⟨2025, 3, 9, 10, 0, 0⟩
     (by decide) (by decide) (by decide) (by decide)⟩

end BackupToNextcloud
